import Mathlib

/-!
Verification of the ION-Bus Connect transfer-opportunity engine.

The definitions below are a shallow embedding of the Python sources
`build_transfer_index.py`, `build_transfer_index_interactive.py` and
`ion_bus_connect.py`.  All three scripts contain the same pipeline:

  1. spatial join: bus stops within a buffer around each ION (rail) stop
     (geopandas `sjoin` with `predicate='within'` on `buffer(radius)`);
  2. temporal pairing: for each matched pair, for each rail arrival and
     bus departure, parse both `HH:MM:SS` strings with
     `pd.to_datetime(..., format='%H:%M:%S')`, take the difference in
     minutes and keep records with `0 <= diff_minutes <= MAX_TRANSFER_M`;
  3. aggregation: `groupby('ion_stop_id')['bus_route_id'].nunique()`,
     with every ION stop present in the result (absent stops count 0).

Coordinates are planar (EPSG:26917, metres); we embed them as integers,
the buffer test being a comparison of squared Euclidean distances, which
is exact on integer inputs.  Time strings of shape `\d\d:\d\d:\d\d` are
embedded as a triple of two-digit fields.  The Python float arithmetic
`(bus_time - ion_time).total_seconds() / 60` is exact at these magnitudes
(integer second counts below 2^53), and for an integer threshold `M`
the float comparison `0 <= s/60 <= M` holds exactly when the integer
comparison `0 <= s <= 60*M` does, so the embedding works in seconds.
-/

/-- A time-of-day string of shape `HH:MM:SS` (the shape enforced by the
regular expression filter in the sources), as its three numeric fields.
Fields are two decimal digits, hence at most 99; GTFS allows hour fields
of 24 and above for post-midnight trips. -/
structure HMS where
  h : Nat
  m : Nat
  s : Nat
deriving DecidableEq, Repr

/-- Elapsed seconds past service-day midnight encoded by an `HMS` value. -/
def elapsed (t : HMS) : Nat := 3600 * t.h + 60 * t.m + t.s

/-- `pd.to_datetime(x, format='%H:%M:%S')` as used in the pairing loops
(`build_transfer_index.py` lines 184/186, `build_transfer_index_interactive.py`
lines 52/54, `ion_bus_connect.py` lines 283/285): a wall-clock parse onto a
fixed default date.  It accepts only hour 00-23, minute 00-59, second 00-59
and raises `ValueError` otherwise; success yields a timestamp whose offset
from that date's midnight is the elapsed seconds of the fields. -/
def strptimeHMS (t : HMS) : Option Nat :=
  if t.h ≤ 23 && t.m ≤ 59 && t.s ≤ 59 then some (elapsed t) else none

/-- A stop row: `stop_id` plus its planar (projected, metre) coordinate. -/
structure Stop where
  sid : Nat
  x : Int
  y : Int
deriving DecidableEq, Repr

/-- A filtered timetable row (a rail-arrival or bus-departure event):
`stop_id`, `route_id` and the event's time string. -/
structure Ev where
  sid : Nat
  rid : Nat
  t : HMS
deriving DecidableEq, Repr

/-- One transfer-opportunity record, as appended to the `transfers` list:
`{'ion_stop_id': ..., 'bus_route_id': ...}`. -/
structure Opp where
  ion : Nat
  rid : Nat
deriving DecidableEq, Repr

/-- Squared Euclidean distance between two planar coordinates. -/
def distSq (x1 y1 x2 y2 : Int) : Int :=
  (x1 - x2) * (x1 - x2) + (y1 - y2) * (y1 - y2)

/-- The containment test of the spatial join
(`gpd.sjoin(bus_stops, ion_buffers, predicate='within', how='inner')` after
`ion_buffers.buffer(r)`): the bus stop lies in the interior of the disc of
radius `r` around the rail stop.  `buffer` of a point with a non-positive
radius is the empty region, so nothing is `within` it; for positive `r`,
interior membership is strict inequality of distances, embedded as a strict
comparison of squares. -/
def withinBuffer (b i : Stop) (r : Int) : Bool :=
  decide (0 < r) && decide (distSq b.x b.y i.x i.y < r * r)

/-- The spatial join's row set (`nearby`): one `(ion_stop_id, bus_stop_id)`
pair per bus stop lying within the buffer of an ION stop, enumerated in the
order of the underlying frames. -/
def nearbyPairs (busStops ionStops : List Stop) (r : Int) : List (Nat × Nat) :=
  busStops.flatMap fun b =>
    (ionStops.filter fun i => withinBuffer b i r).map fun i => (i.sid, b.sid)

/-- The per-combination body of the pairing loop: parse both time strings
(raising, i.e. `none`, on a field outside wall-clock range), compute the
difference, and emit one record when `0 <= diff_minutes <= maxM`.  The
minute comparison on the float `diff/60` is exact and equivalent to the
seconds comparison used here. -/
def emitOne (maxM : Int) (ion : Nat) (a d : Ev) : Option (List Opp) :=
  match strptimeHMS a.t, strptimeHMS d.t with
  | some ta, some td =>
      some (if 0 ≤ (td : Int) - (ta : Int) ∧ (td : Int) - (ta : Int) ≤ 60 * maxM
            then [⟨ion, d.rid⟩] else [])
  | _, _ => none

/-- Monadic map over `Option`, modelling a Python loop that raises (aborting
the whole run) at the first failing element and otherwise collects results. -/
def tryMap (f : α → Option β) : List α → Option (List β)
  | [] => some []
  | a :: l =>
    match f a, tryMap f l with
    | some b, some bs => some (b :: bs)
    | _, _ => none

/-- The inner departure loop for one rail arrival `a` of a matched pair. -/
def evalArr (maxM : Int) (ion : Nat) (dep : List Ev) (a : Ev) : Option (List Opp) :=
  Option.map List.flatten (tryMap (fun d => emitOne maxM ion a d) dep)

/-- The body of the candidate-pair loop: select this pair's arrival and
departure events (`ion_times[ion_times['stop_id'] == ion_stop_id]`,
`bus_times[bus_times['stop_id'] == bus_stop_id]`) and run the nested
event loops.  The `len(ion_arr) == 0 or len(bus_dep) == 0: continue`
guard of the sources is semantically void (empty loops emit nothing)
and is absorbed by the empty-list cases here. -/
def pairOpps (maxM : Int) (ionT busT : List Ev) (p : Nat × Nat) : Option (List Opp) :=
  Option.map List.flatten
    (tryMap (evalArr maxM p.1 (busT.filter fun e => e.sid == p.2))
      (ionT.filter fun e => e.sid == p.1))

/-- The full `transfers` list built by the pairing loops, `none` when some
visited time string fails the wall-clock parse (the Python run aborts). -/
def transfersO (maxM : Int) (pairs : List (Nat × Nat)) (ionT busT : List Ev) :
    Option (List Opp) :=
  Option.map List.flatten (tryMap (pairOpps maxM ionT busT) pairs)

/-- `groupby('ion_stop_id')['bus_route_id'].nunique()` evaluated at one
stop id: the number of distinct route ids among this stop's records
(`dedup` keeps one representative per distinct value). -/
def distinctRoutes (sid : Nat) (ts : List Opp) : Nat :=
  ((ts.filter fun o => o.ion == sid).map fun o => o.rid).dedup.length

/-- The aggregation step: a result row per ION stop, initialised to 0 and
set to the groupby count for stops having records
(`result = pd.DataFrame(index=ion_stops['stop_id']); result[...] = 0;
result.loc[xfer_counts.index, ...] = xfer_counts.values`, and equivalently
the left merge with `fillna(0)` of the other two scripts).  A stop id
absent from `ts` gets `distinctRoutes sid ts = 0`, so both branches
collapse to one map. -/
def aggregate (ionStops : List Stop) (ts : List Opp) : List (Nat × Nat) :=
  ionStops.map fun s => (s.sid, distinctRoutes s.sid ts)

/-- `calculate_transfers_for_distance(ion_stops, bus_stops, ion_times,
bus_times, buffer_m)` with the transfer threshold made a parameter (it is
the module constant `MAX_TRANSFER_M` in two scripts and `args.transfer_time`
in `ion_bus_connect.py`): spatial join, pairing loops, aggregation.
`none` models the run aborting on a time-parse `ValueError`. -/
def calcTransfers (ionStops busStops : List Stop) (ionT busT : List Ev)
    (r maxM : Int) : Option (List (Nat × Nat)) :=
  Option.map (aggregate ionStops)
    (transfersO maxM (nearbyPairs busStops ionStops r) ionT busT)

/-- The argument validation performed by `main` in `ion_bus_connect.py`
(lines 147-151): only the service-date string is checked
(`dt.date.fromisoformat`); the `--buffer` and `--transfer-time` integers
are used as parsed, with no sign check. -/
def validateArgs (dateOk : Bool) (_buffer _maxM : Int) : Bool := dateOk

/-- Elapsed-seconds pairing semantics, as the specification prescribes it
for the Temporal Pairing Engine: the difference is taken directly between
elapsed-second values, post-midnight fields included, no wall-clock parse.
Also the image of `emitOne` on inputs that parse. -/
def emitOneP (maxM : Int) (ion : Nat) (a d : Ev) : List Opp :=
  if 0 ≤ (elapsed d.t : Int) - (elapsed a.t : Int) ∧
      (elapsed d.t : Int) - (elapsed a.t : Int) ≤ 60 * maxM
  then [⟨ion, d.rid⟩] else []

/-- The `transfers` list under elapsed-seconds semantics (total). -/
def transfersP (maxM : Int) (pairs : List (Nat × Nat)) (ionT busT : List Ev) :
    List Opp :=
  pairs.flatMap fun p =>
    (ionT.filter fun e => e.sid == p.1).flatMap fun a =>
      (busT.filter fun e => e.sid == p.2).flatMap fun d =>
        emitOneP maxM p.1 a d

/-- The whole pipeline under elapsed-seconds semantics (total). -/
def calcPure (ionStops busStops : List Stop) (ionT busT : List Ev)
    (r maxM : Int) : List (Nat × Nat) :=
  aggregate ionStops (transfersP maxM (nearbyPairs busStops ionStops r) ionT busT)

/-- An event whose time fields are in wall-clock range, i.e. on which the
sources' fixed-date parse succeeds. -/
def validEv (e : Ev) : Prop := e.t.h ≤ 23 ∧ e.t.m ≤ 59 ∧ e.t.s ≤ 59

/-- All events of a list parse. -/
def validEvs (l : List Ev) : Prop := ∀ e ∈ l, validEv e

instance : DecidablePred validEv := fun e => by unfold validEv; infer_instance

instance : DecidablePred validEvs := fun l => List.decidableBAll validEv l

/-! The time-window filter of the sources (`build_transfer_index.py` lines
144-155, `ion_bus_connect.py` lines 241-252) works on the raw strings: it
keeps a stop-time row when the time value is present (`notna`), matches
the regular expression `^\d\d:\d\d:\d\d$`, and lies between the window
bound strings under Python string comparison, which is lexicographic on
code points.  We embed strings as lists of characters. -/

/-- The decimal digit character for `n` (meaningful for `n ≤ 9`). -/
def digitChar (n : Nat) : Char := Char.ofNat (48 + n)

/-- The two-digit zero-padded rendering of a field value below 100. -/
def pad2 (n : Nat) : List Char := [digitChar (n / 10), digitChar (n % 10)]

/-- The `HH:MM:SS` string of an `HMS` value. -/
def render (t : HMS) : List Char :=
  pad2 t.h ++ ':' :: (pad2 t.m ++ ':' :: pad2 t.s)

/-- Python string comparison `x <= y`: lexicographic on code points. -/
def lexLe : List Char → List Char → Bool
  | [], _ => true
  | _ :: _, [] => false
  | a :: as, b :: bs =>
    if a.toNat < b.toNat then true
    else if b.toNat < a.toNat then false
    else lexLe as bs

/-- A decimal digit character. -/
def isDigitCh (c : Char) : Bool := decide (48 ≤ c.toNat) && decide (c.toNat ≤ 57)

/-- The shape test `str.match(r'^\d{2}:\d{2}:\d{2}$')`. -/
def isShaped : List Char → Bool
  | [h1, h2, c1, m1, m2, c2, s1, s2] =>
    isDigitCh h1 && isDigitCh h2 && (c1 == ':') && isDigitCh m1 && isDigitCh m2 &&
      (c2 == ':') && isDigitCh s1 && isDigitCh s2
  | _ => false

/-- A raw stop-time row before the time filter: the time column may be
missing (`NaN`, embedded as `none`) or hold an arbitrary string. -/
structure RawEv where
  sid : Nat
  rid : Nat
  time : Option (List Char)
deriving DecidableEq, Repr

/-- The mask of the sources' time filter for one row:
`notna & str.match(^\d{2}:\d{2}:\d{2}$, na=False) & (t >= winS) & (t <= winE)`. -/
def keepEvent (winS winE : List Char) (e : RawEv) : Bool :=
  match e.time with
  | none => false
  | some t => isShaped t && lexLe winS t && lexLe t winE

/-- The time-window filter over a list of raw rows. -/
def rawFilter (winS winE : List Char) (l : List RawEv) : List RawEv :=
  l.filter (keepEvent winS winE)

/-- Well-formed time fields: two-digit hour (post-midnight hours 24-99
allowed), and minute and second fields in clock range. -/
def wfT (t : HMS) : Prop := t.h ≤ 99 ∧ t.m ≤ 59 ∧ t.s ≤ 59

instance : DecidablePred wfT := fun t => by unfold wfT; infer_instance

-- Sanity checks on the worked scenario of the specification (deleted
-- after development): see the theorems below.

theorem strptime_of_valid (t : HMS) (h1 : t.h ≤ 23) (h2 : t.m ≤ 59) (h3 : t.s ≤ 59) :
    strptimeHMS t = some (elapsed t) := by
  unfold strptimeHMS
  simp [h1, h2, h3]

theorem emitOne_of_valid (maxM : Int) (ion : Nat) (a d : Ev)
    (ha : validEv a) (hd : validEv d) :
    emitOne maxM ion a d = some (emitOneP maxM ion a d) := by
  obtain ⟨ha1, ha2, ha3⟩ := ha
  obtain ⟨hd1, hd2, hd3⟩ := hd
  unfold emitOne emitOneP
  rw [strptime_of_valid a.t ha1 ha2 ha3, strptime_of_valid d.t hd1 hd2 hd3]

theorem tryMap_eq_some_map {f : α → Option β} {g : α → β} {l : List α}
    (h : ∀ a ∈ l, f a = some (g a)) : tryMap f l = some (l.map g) := by
  induction l with
  | nil => rfl
  | cons a l ih =>
    have ha := h a (List.mem_cons_self a l)
    have hl := ih fun x hx => h x (List.mem_cons_of_mem a hx)
    unfold tryMap
    rw [ha, hl]
    rfl

theorem transfersO_of_valid (maxM : Int) (pairs : List (Nat × Nat))
    (ionT busT : List Ev) (hi : validEvs ionT) (hb : validEvs busT) :
    transfersO maxM pairs ionT busT = some (transfersP maxM pairs ionT busT) := by
  unfold transfersO transfersP
  have hpair : ∀ p ∈ pairs, pairOpps maxM ionT busT p =
      some ((ionT.filter fun e => e.sid == p.1).flatMap fun a =>
        (busT.filter fun e => e.sid == p.2).flatMap fun d =>
          emitOneP maxM p.1 a d) := by
    intro p _
    unfold pairOpps
    have harr : ∀ a ∈ ionT.filter fun e => e.sid == p.1,
        evalArr maxM p.1 (busT.filter fun e => e.sid == p.2) a =
          some ((busT.filter fun e => e.sid == p.2).flatMap fun d =>
            emitOneP maxM p.1 a d) := by
      intro a hain
      unfold evalArr
      have hdep : ∀ d ∈ busT.filter fun e => e.sid == p.2,
          emitOne maxM p.1 a d = some (emitOneP maxM p.1 a d) :=
        fun d hdin => emitOne_of_valid maxM p.1 a d
          (hi a (List.mem_of_mem_filter hain))
          (hb d (List.mem_of_mem_filter hdin))
      rw [tryMap_eq_some_map hdep]
      simp [List.flatMap]
    rw [tryMap_eq_some_map harr]
    simp [List.flatMap]
  rw [tryMap_eq_some_map hpair]
  simp [List.flatMap]

theorem calcTransfers_of_valid (ionStops busStops : List Stop)
    (ionT busT : List Ev) (r maxM : Int)
    (hi : validEvs ionT) (hb : validEvs busT) :
    calcTransfers ionStops busStops ionT busT r maxM =
      some (calcPure ionStops busStops ionT busT r maxM) := by
  unfold calcTransfers calcPure
  rw [transfersO_of_valid maxM _ ionT busT hi hb]
  rfl

theorem distSq_nonneg (x1 y1 x2 y2 : Int) : 0 ≤ distSq x1 y1 x2 y2 :=
  add_nonneg (mul_self_nonneg _) (mul_self_nonneg _)

theorem withinBuffer_iff {b i : Stop} {r : Int} (hr : 0 ≤ r) :
    withinBuffer b i r = true ↔ distSq b.x b.y i.x i.y < r * r := by
  unfold withinBuffer
  simp only [Bool.and_eq_true, decide_eq_true_eq]
  constructor
  · rintro ⟨-, h⟩
    exact h
  · intro h
    refine ⟨?_, h⟩
    rcases lt_or_eq_of_le hr with h0 | h0
    · exact h0
    · exfalso
      rw [← h0] at h
      exact absurd (distSq_nonneg b.x b.y i.x i.y) (not_le.mpr (by simpa using h))

theorem mem_nearbyPairs {busStops ionStops : List Stop} {r : Int} {q : Nat × Nat} :
    q ∈ nearbyPairs busStops ionStops r ↔
      ∃ sb ∈ busStops, ∃ si ∈ ionStops,
        si.sid = q.1 ∧ sb.sid = q.2 ∧ withinBuffer sb si r = true := by
  unfold nearbyPairs
  simp only [List.mem_flatMap, List.mem_map, List.mem_filter]
  constructor
  · rintro ⟨sb, hsb, si, ⟨hsi, hw⟩, hq⟩
    exact ⟨sb, hsb, si, hsi, by rw [← hq], by rw [← hq], hw⟩
  · rintro ⟨sb, hsb, si, hsi, h1, h2, hw⟩
    obtain ⟨q1, q2⟩ := q
    exact ⟨sb, hsb, si, ⟨hsi, hw⟩, by simp_all⟩

/-- C7: the proximity matcher emits the pair `(i, b)` exactly when some bus
stop with id `b` lies strictly inside the disc of radius `r` centred on some
rail stop with id `i` (strict-interior `within` semantics, compared on
squared distances); in particular with `r = 0` the disc interior is empty,
so a bus stop at a distinct coordinate (indeed, any bus stop) yields no pair. -/
theorem c7_strict_within (busStops ionStops : List Stop) (r : Int) (i b : Nat)
    (hr : 0 ≤ r) :
    (i, b) ∈ nearbyPairs busStops ionStops r ↔
      ∃ sb ∈ busStops, ∃ si ∈ ionStops,
        si.sid = i ∧ sb.sid = b ∧ distSq sb.x sb.y si.x si.y < r * r := by
  rw [mem_nearbyPairs]
  constructor
  · rintro ⟨sb, hsb, si, hsi, h1, h2, hw⟩
    exact ⟨sb, hsb, si, hsi, h1, h2, (withinBuffer_iff hr).mp hw⟩
  · rintro ⟨sb, hsb, si, hsi, h1, h2, hd⟩
    exact ⟨sb, hsb, si, hsi, h1, h2, (withinBuffer_iff hr).mpr hd⟩

theorem c7_strict_within_witness :
    ((1, 2) ∈ nearbyPairs [⟨2, 50, 0⟩] [⟨1, 0, 0⟩] 100 ↔
      ∃ sb ∈ [(⟨2, 50, 0⟩ : Stop)], ∃ si ∈ [(⟨1, 0, 0⟩ : Stop)],
        si.sid = 1 ∧ sb.sid = 2 ∧ distSq sb.x sb.y si.x si.y < 100 * 100) :=
  c7_strict_within [⟨2, 50, 0⟩] [⟨1, 0, 0⟩] 100 1 2 (by decide)

/-- C4: for a matched pair and one (arrival, departure) combination with
wall-clock-parseable times, a record is emitted exactly when the elapsed
difference lies in the closed window `[0, 60 * maxM]` seconds, i.e.
`0 ≤ delta_minutes ≤ maxM` with both endpoints included; and with
`maxM = 0` a record is emitted exactly when the difference is zero. -/
theorem c4_closed_window (maxM : Int) (ion : Nat) (a d : Ev)
    (ha : validEv a) (hd : validEv d) :
    (emitOne maxM ion a d =
      some (if 0 ≤ (elapsed d.t : Int) - (elapsed a.t : Int) ∧
               (elapsed d.t : Int) - (elapsed a.t : Int) ≤ 60 * maxM
            then [⟨ion, d.rid⟩] else [])) ∧
    (maxM = 0 →
      (emitOne maxM ion a d = some [⟨ion, d.rid⟩] ↔
        (elapsed d.t : Int) - (elapsed a.t : Int) = 0)) := by
  have h1 : emitOne maxM ion a d = some (emitOneP maxM ion a d) :=
    emitOne_of_valid maxM ion a d ha hd
  constructor
  · rw [h1]
    rfl
  · intro h0
    subst h0
    rw [h1]
    unfold emitOneP
    constructor
    · intro h
      split_ifs at h with hc
      · omega
      · simp at h
    · intro h
      rw [if_pos (by omega)]

theorem c4_closed_window_witness :
    validEv ⟨1, 301, ⟨7, 0, 0⟩⟩ ∧ validEv ⟨2, 7, ⟨7, 3, 0⟩⟩ ∧
    ((emitOne 6 1 ⟨1, 301, ⟨7, 0, 0⟩⟩ ⟨2, 7, ⟨7, 3, 0⟩⟩ =
      some (if 0 ≤ (elapsed ⟨7, 3, 0⟩ : Int) - (elapsed ⟨7, 0, 0⟩ : Int) ∧
               (elapsed ⟨7, 3, 0⟩ : Int) - (elapsed ⟨7, 0, 0⟩ : Int) ≤ 60 * 6
            then [⟨1, 7⟩] else [])) ∧
    ((6 : Int) = 0 →
      (emitOne 6 1 ⟨1, 301, ⟨7, 0, 0⟩⟩ ⟨2, 7, ⟨7, 3, 0⟩⟩ = some [⟨1, 7⟩] ↔
        (elapsed ⟨7, 3, 0⟩ : Int) - (elapsed ⟨7, 0, 0⟩ : Int) = 0))) :=
  ⟨by decide, by decide,
    c4_closed_window 6 1 ⟨1, 301, ⟨7, 0, 0⟩⟩ ⟨2, 7, ⟨7, 3, 0⟩⟩ (by decide) (by decide)⟩

/-- C1: the pairing loops parse each time string onto a fixed calendar date
with `%H:%M:%S`.  On the post-midnight service time `25:30:00` (admissible
under GTFS elapsed-time semantics and of the filtered shape) the parse
raises, so a run whose matched pair carries that departure aborts (`none`)
instead of computing the elapsed difference `66600` seconds (1110 minutes)
from the `07:00:00` arrival. -/
theorem c1_fixed_date_parse_aborts :
    calcTransfers [⟨1, 0, 0⟩] [⟨2, 50, 0⟩]
        [⟨1, 301, ⟨7, 0, 0⟩⟩] [⟨2, 7, ⟨25, 30, 0⟩⟩] 100 6 = none ∧
    strptimeHMS ⟨25, 30, 0⟩ = none ∧
    (elapsed ⟨25, 30, 0⟩ : Int) - (elapsed ⟨7, 0, 0⟩ : Int) = 66600 := by
  refine ⟨?_, by decide, by decide⟩
  decide

/-- C5: `main` of `ion_bus_connect.py` validates only the date string; a
negative `--buffer` or `--transfer-time` passes validation unchanged and the
engine then silently produces the all-zero index (here on a scenario that
yields a transfer at the positive parameters `100` / `6`). -/
theorem c5_negative_params_silently_accepted :
    validateArgs true (-100) 6 = true ∧
    calcTransfers [⟨1, 0, 0⟩] [⟨2, 50, 0⟩]
        [⟨1, 301, ⟨7, 0, 0⟩⟩] [⟨2, 7, ⟨7, 3, 0⟩⟩] (-100) 6 = some [(1, 0)] ∧
    validateArgs true 100 (-1) = true ∧
    calcTransfers [⟨1, 0, 0⟩] [⟨2, 50, 0⟩]
        [⟨1, 301, ⟨7, 0, 0⟩⟩] [⟨2, 7, ⟨7, 3, 0⟩⟩] 100 (-1) = some [(1, 0)] ∧
    calcTransfers [⟨1, 0, 0⟩] [⟨2, 50, 0⟩]
        [⟨1, 301, ⟨7, 0, 0⟩⟩] [⟨2, 7, ⟨7, 3, 0⟩⟩] 100 6 = some [(1, 1)] := by
  refine ⟨rfl, by decide, rfl, by decide, by decide⟩

/-- C6 (amended): on empty filtered event sets the engine returns, with no
further signal, the index mapping every rail stop to count 0 — the same
plain mapping shape as any other run. -/
theorem c6_empty_schedule_zero_index (ionStops busStops : List Stop) (r maxM : Int) :
    calcTransfers ionStops busStops [] [] r maxM =
      some (ionStops.map fun s => (s.sid, 0)) := by
  have hp : ∀ p ∈ nearbyPairs busStops ionStops r,
      pairOpps maxM [] [] p = some [] := fun p _ => rfl
  have hf : ∀ (l : List (Nat × Nat)), (l.map fun _ => ([] : List Opp)).flatten = [] := by
    intro l
    induction l with
    | nil => rfl
    | cons a l ih => simp [ih]
  unfold calcTransfers transfersO
  rw [tryMap_eq_some_map hp]
  show some (aggregate ionStops
      ((nearbyPairs busStops ionStops r).map fun _ => ([] : List Opp)).flatten) = _
  rw [hf]
  rfl

/-- C6 counterexample: the no-service run (empty filtered event sets) and a
run with service but no qualifying nearby route return the very same value;
nothing in the engine's result signals which case occurred. -/
theorem c6_zero_outputs_conflated :
    calcTransfers [⟨1, 0, 0⟩] [⟨2, 5000, 0⟩] [] [] 100 6 =
      calcTransfers [⟨1, 0, 0⟩] [⟨2, 5000, 0⟩]
        [⟨1, 301, ⟨7, 0, 0⟩⟩] [⟨2, 7, ⟨7, 3, 0⟩⟩] 100 6 := by
  decide

/-- C2: when every event time parses, the engine produces an output whose
key list is exactly the rail-stop id list (one entry per supplied rail stop,
no extra keys, any input including empty schedules), and a rail stop with no
opportunity record appears with count 0. -/
theorem c2_totality (ionStops busStops : List Stop) (ionT busT : List Ev)
    (r maxM : Int) (hi : validEvs ionT) (hb : validEvs busT) :
    ∃ ts out,
      transfersO maxM (nearbyPairs busStops ionStops r) ionT busT = some ts ∧
      calcTransfers ionStops busStops ionT busT r maxM = some out ∧
      out.map Prod.fst = ionStops.map Stop.sid ∧
      ∀ s ∈ ionStops, (∀ o ∈ ts, ¬o.ion = s.sid) → (s.sid, 0) ∈ out := by
  refine ⟨transfersP maxM (nearbyPairs busStops ionStops r) ionT busT,
    aggregate ionStops (transfersP maxM (nearbyPairs busStops ionStops r) ionT busT),
    transfersO_of_valid maxM _ ionT busT hi hb, ?_, ?_, ?_⟩
  · unfold calcTransfers
    rw [transfersO_of_valid maxM _ ionT busT hi hb]
    rfl
  · unfold aggregate
    rw [List.map_map]
    rfl
  · intro s hs hno
    have hfil : (transfersP maxM (nearbyPairs busStops ionStops r) ionT busT).filter
        (fun o => o.ion == s.sid) = [] := by
      rw [List.filter_eq_nil_iff]
      intro o ho
      simpa using hno o ho
    have h0 : distinctRoutes s.sid
        (transfersP maxM (nearbyPairs busStops ionStops r) ionT busT) = 0 := by
      unfold distinctRoutes
      rw [hfil]
      rfl
    rw [← h0]
    exact List.mem_map_of_mem _ hs

theorem c2_totality_witness :
    ∃ ts out,
      transfersO 6 (nearbyPairs [⟨2, 50, 0⟩] [⟨1, 0, 0⟩] 100) [] [] = some ts ∧
      calcTransfers [⟨1, 0, 0⟩] [⟨2, 50, 0⟩] [] [] 100 6 = some out ∧
      out.map Prod.fst = [(⟨1, 0, 0⟩ : Stop)].map Stop.sid ∧
      ∀ s ∈ [(⟨1, 0, 0⟩ : Stop)], (∀ o ∈ ts, ¬o.ion = s.sid) → (s.sid, 0) ∈ out :=
  c2_totality [⟨1, 0, 0⟩] [⟨2, 50, 0⟩] [] [] 100 6 (by decide) (by decide)

/-- C3: when every event time parses, the engine's output pairs each rail
stop id with the number of distinct `bus_route_id` values among that stop's
transfer-opportunity records (a route qualifying through several event pairs
or several matched bus stops still contributes exactly 1). -/
theorem c3_distinct_route_count (ionStops busStops : List Stop) (ionT busT : List Ev)
    (r maxM : Int) (hi : validEvs ionT) (hb : validEvs busT) :
    ∃ ts out,
      transfersO maxM (nearbyPairs busStops ionStops r) ionT busT = some ts ∧
      calcTransfers ionStops busStops ionT busT r maxM = some out ∧
      ∀ s ∈ ionStops,
        (s.sid, ((ts.filter fun o => o.ion == s.sid).map fun o => o.rid).toFinset.card)
          ∈ out := by
  refine ⟨transfersP maxM (nearbyPairs busStops ionStops r) ionT busT,
    aggregate ionStops (transfersP maxM (nearbyPairs busStops ionStops r) ionT busT),
    transfersO_of_valid maxM _ ionT busT hi hb, ?_, ?_⟩
  · unfold calcTransfers
    rw [transfersO_of_valid maxM _ ionT busT hi hb]
    rfl
  · intro s hs
    rw [List.card_toFinset]
    exact List.mem_map_of_mem _ hs

theorem c3_distinct_route_count_witness :
    (∃ ts out,
      transfersO 6 (nearbyPairs [⟨2, 50, 0⟩, ⟨3, 0, 50⟩] [⟨1, 0, 0⟩] 100)
        [⟨1, 301, ⟨7, 0, 0⟩⟩] [⟨2, 7, ⟨7, 3, 0⟩⟩, ⟨3, 7, ⟨7, 4, 0⟩⟩] = some ts ∧
      calcTransfers [⟨1, 0, 0⟩] [⟨2, 50, 0⟩, ⟨3, 0, 50⟩]
        [⟨1, 301, ⟨7, 0, 0⟩⟩] [⟨2, 7, ⟨7, 3, 0⟩⟩, ⟨3, 7, ⟨7, 4, 0⟩⟩] 100 6 = some out ∧
      ∀ s ∈ [(⟨1, 0, 0⟩ : Stop)],
        (s.sid, ((ts.filter fun o => o.ion == s.sid).map fun o => o.rid).toFinset.card)
          ∈ out) ∧
    calcTransfers [⟨1, 0, 0⟩] [⟨2, 50, 0⟩, ⟨3, 0, 50⟩]
        [⟨1, 301, ⟨7, 0, 0⟩⟩] [⟨2, 7, ⟨7, 3, 0⟩⟩, ⟨3, 7, ⟨7, 4, 0⟩⟩] 100 6 =
      some [(1, 1)] :=
  ⟨c3_distinct_route_count [⟨1, 0, 0⟩] [⟨2, 50, 0⟩, ⟨3, 0, 50⟩]
      [⟨1, 301, ⟨7, 0, 0⟩⟩] [⟨2, 7, ⟨7, 3, 0⟩⟩, ⟨3, 7, ⟨7, 4, 0⟩⟩] 100 6
      (by decide) (by decide),
    by decide⟩

theorem withinBuffer_mono {b i : Stop} {r1 r2 : Int} (h : r1 ≤ r2)
    (hw : withinBuffer b i r1 = true) : withinBuffer b i r2 = true := by
  unfold withinBuffer at hw ⊢
  simp only [Bool.and_eq_true, decide_eq_true_eq] at hw ⊢
  obtain ⟨h0, hd⟩ := hw
  exact ⟨lt_of_lt_of_le h0 h,
    lt_of_lt_of_le hd (mul_self_le_mul_self (le_of_lt h0) h)⟩

theorem nearbyPairs_mono {busStops ionStops : List Stop} {r1 r2 : Int} (h : r1 ≤ r2) :
    ∀ p ∈ nearbyPairs busStops ionStops r1, p ∈ nearbyPairs busStops ionStops r2 := by
  intro p hp
  rw [mem_nearbyPairs] at hp ⊢
  obtain ⟨sb, hsb, si, hsi, h1, h2, hw⟩ := hp
  exact ⟨sb, hsb, si, hsi, h1, h2, withinBuffer_mono h hw⟩

theorem emitOneP_mono {t1 t2 : Int} (h : t1 ≤ t2) (ion : Nat) (a d : Ev) :
    emitOneP t1 ion a d ⊆ emitOneP t2 ion a d := by
  unfold emitOneP
  intro o ho
  split_ifs at ho with h1
  · rw [if_pos ⟨h1.1, le_trans h1.2 (by omega)⟩]
    exact ho
  · exact absurd ho (List.not_mem_nil o)

theorem transfersP_mono_pairs {maxM : Int} {pairs1 pairs2 : List (Nat × Nat)}
    {ionT busT : List Ev} (h : ∀ p ∈ pairs1, p ∈ pairs2) :
    transfersP maxM pairs1 ionT busT ⊆ transfersP maxM pairs2 ionT busT := by
  intro o ho
  unfold transfersP at ho ⊢
  rw [List.mem_flatMap] at ho ⊢
  obtain ⟨p, hp, hin⟩ := ho
  exact ⟨p, h p hp, hin⟩

theorem transfersP_mono_threshold {t1 t2 : Int} (h : t1 ≤ t2)
    (pairs : List (Nat × Nat)) (ionT busT : List Ev) :
    transfersP t1 pairs ionT busT ⊆ transfersP t2 pairs ionT busT := by
  intro o ho
  unfold transfersP at ho ⊢
  rw [List.mem_flatMap] at ho ⊢
  obtain ⟨p, hp, hin⟩ := ho
  refine ⟨p, hp, ?_⟩
  rw [List.mem_flatMap] at hin ⊢
  obtain ⟨a, ha, hin⟩ := hin
  refine ⟨a, ha, ?_⟩
  rw [List.mem_flatMap] at hin ⊢
  obtain ⟨d, hd, hin⟩ := hin
  exact ⟨d, hd, emitOneP_mono h p.1 a d hin⟩

theorem distinctRoutes_mono {ts1 ts2 : List Opp} (h : ts1 ⊆ ts2) (sid : Nat) :
    distinctRoutes sid ts1 ≤ distinctRoutes sid ts2 := by
  unfold distinctRoutes
  rw [← List.card_toFinset, ← List.card_toFinset]
  apply Finset.card_le_card
  intro x hx
  rw [List.mem_toFinset, List.mem_map] at hx ⊢
  obtain ⟨o, ho, hox⟩ := hx
  rw [List.mem_filter] at ho
  exact ⟨o, List.mem_filter.mpr ⟨h ho.1, ho.2⟩, hox⟩

/-- C8: with parseable event times, candidate pairs at a smaller radius are
a subset of those at a larger radius and per-stop distinct-route counts are
non-decreasing in the radius; opportunity records at a smaller wait
threshold are a subset of those at a larger one and counts are
non-decreasing in the threshold. -/
theorem c8_monotonicity (ionStops busStops : List Stop) (ionT busT : List Ev)
    (r r1 r2 t t1 t2 : Int) (hr : r1 < r2) (ht : t1 < t2)
    (hi : validEvs ionT) (hb : validEvs busT) :
    (∀ p ∈ nearbyPairs busStops ionStops r1, p ∈ nearbyPairs busStops ionStops r2) ∧
    (∃ o1 o2, calcTransfers ionStops busStops ionT busT r1 t = some o1 ∧
       calcTransfers ionStops busStops ionT busT r2 t = some o2 ∧
       ∀ s c1 c2, (s, c1) ∈ o1 → (s, c2) ∈ o2 → c1 ≤ c2) ∧
    (∃ ts1 ts2, transfersO t1 (nearbyPairs busStops ionStops r) ionT busT = some ts1 ∧
       transfersO t2 (nearbyPairs busStops ionStops r) ionT busT = some ts2 ∧
       ts1 ⊆ ts2) ∧
    (∃ o1 o2, calcTransfers ionStops busStops ionT busT r t1 = some o1 ∧
       calcTransfers ionStops busStops ionT busT r t2 = some o2 ∧
       ∀ s c1 c2, (s, c1) ∈ o1 → (s, c2) ∈ o2 → c1 ≤ c2) := by
  have key : ∀ (ra rb ta tb : Int), ra ≤ rb → ta ≤ tb →
      ∃ o1 o2, calcTransfers ionStops busStops ionT busT ra ta = some o1 ∧
        calcTransfers ionStops busStops ionT busT rb tb = some o2 ∧
        ∀ s c1 c2, (s, c1) ∈ o1 → (s, c2) ∈ o2 → c1 ≤ c2 := by
    intro ra rb ta tb hrab htab
    refine ⟨aggregate ionStops (transfersP ta (nearbyPairs busStops ionStops ra) ionT busT),
      aggregate ionStops (transfersP tb (nearbyPairs busStops ionStops rb) ionT busT),
      ?_, ?_, ?_⟩
    · unfold calcTransfers
      rw [transfersO_of_valid ta _ ionT busT hi hb]
      rfl
    · unfold calcTransfers
      rw [transfersO_of_valid tb _ ionT busT hi hb]
      rfl
    · intro s c1 c2 h1 h2
      unfold aggregate at h1 h2
      rw [List.mem_map] at h1 h2
      obtain ⟨s1, _, hs1⟩ := h1
      obtain ⟨s2, _, hs2⟩ := h2
      rw [Prod.mk.injEq] at hs1 hs2
      obtain ⟨e11, e12⟩ := hs1
      obtain ⟨e21, e22⟩ := hs2
      rw [← e12, ← e22, e11, e21]
      exact distinctRoutes_mono
        (fun o ho => transfersP_mono_threshold htab _ ionT busT
          (transfersP_mono_pairs (nearbyPairs_mono hrab) ho)) s
  refine ⟨nearbyPairs_mono (le_of_lt hr), key r1 r2 t t (le_of_lt hr) le_rfl, ?_, 
    key r r t1 t2 le_rfl (le_of_lt ht)⟩
  refine ⟨transfersP t1 (nearbyPairs busStops ionStops r) ionT busT,
    transfersP t2 (nearbyPairs busStops ionStops r) ionT busT,
    transfersO_of_valid t1 _ ionT busT hi hb,
    transfersO_of_valid t2 _ ionT busT hi hb,
    transfersP_mono_threshold (le_of_lt ht) _ ionT busT⟩

theorem c8_monotonicity_witness :
    ((∀ p ∈ nearbyPairs [⟨2, 50, 0⟩] [⟨1, 0, 0⟩] 40,
        p ∈ nearbyPairs [⟨2, 50, 0⟩] [⟨1, 0, 0⟩] 100) ∧
    (∃ o1 o2, calcTransfers [⟨1, 0, 0⟩] [⟨2, 50, 0⟩]
        [⟨1, 301, ⟨7, 0, 0⟩⟩] [⟨2, 7, ⟨7, 3, 0⟩⟩] 40 6 = some o1 ∧
       calcTransfers [⟨1, 0, 0⟩] [⟨2, 50, 0⟩]
        [⟨1, 301, ⟨7, 0, 0⟩⟩] [⟨2, 7, ⟨7, 3, 0⟩⟩] 100 6 = some o2 ∧
       ∀ s c1 c2, (s, c1) ∈ o1 → (s, c2) ∈ o2 → c1 ≤ c2) ∧
    (∃ ts1 ts2, transfersO 0 (nearbyPairs [⟨2, 50, 0⟩] [⟨1, 0, 0⟩] 100)
        [⟨1, 301, ⟨7, 0, 0⟩⟩] [⟨2, 7, ⟨7, 3, 0⟩⟩] = some ts1 ∧
       transfersO 6 (nearbyPairs [⟨2, 50, 0⟩] [⟨1, 0, 0⟩] 100)
        [⟨1, 301, ⟨7, 0, 0⟩⟩] [⟨2, 7, ⟨7, 3, 0⟩⟩] = some ts2 ∧
       ts1 ⊆ ts2) ∧
    (∃ o1 o2, calcTransfers [⟨1, 0, 0⟩] [⟨2, 50, 0⟩]
        [⟨1, 301, ⟨7, 0, 0⟩⟩] [⟨2, 7, ⟨7, 3, 0⟩⟩] 100 0 = some o1 ∧
       calcTransfers [⟨1, 0, 0⟩] [⟨2, 50, 0⟩]
        [⟨1, 301, ⟨7, 0, 0⟩⟩] [⟨2, 7, ⟨7, 3, 0⟩⟩] 100 6 = some o2 ∧
       ∀ s c1 c2, (s, c1) ∈ o1 → (s, c2) ∈ o2 → c1 ≤ c2)) :=
  c8_monotonicity [⟨1, 0, 0⟩] [⟨2, 50, 0⟩]
    [⟨1, 301, ⟨7, 0, 0⟩⟩] [⟨2, 7, ⟨7, 3, 0⟩⟩] 100 40 100 6 0 6
    (by decide) (by decide) (by decide) (by decide)

theorem transfersP_perm {maxM : Int} {pairs1 pairs2 : List (Nat × Nat)}
    {ionT ionT2 busT busT2 : List Ev}
    (hp : pairs1.Perm pairs2) (hit : ionT.Perm ionT2) (hbt : busT.Perm busT2) :
    (transfersP maxM pairs1 ionT busT).Perm (transfersP maxM pairs2 ionT2 busT2) := by
  unfold transfersP
  refine (hp.flatMap_right _).trans (List.Perm.flatMap_left _ ?_)
  intro p _
  refine ((hit.filter _).flatMap_right _).trans (List.Perm.flatMap_left _ ?_)
  intro a _
  exact (hbt.filter _).flatMap_right _

theorem distinctRoutes_perm {ts1 ts2 : List Opp} (h : ts1.Perm ts2) (sid : Nat) :
    distinctRoutes sid ts1 = distinctRoutes sid ts2 := by
  unfold distinctRoutes
  exact ((h.filter _).map _).dedup.length_eq

/-- C9: permuting the bus-stop frame (and with it the candidate-pair
discovery order), the rail-arrival event list, or the bus-departure event
list leaves the engine's output mapping unchanged — the result is a
function of the input sets only. -/
theorem c9_order_independence (ionStops busStops busStops2 : List Stop)
    (ionT ionT2 busT busT2 : List Ev) (r maxM : Int)
    (hbs : busStops.Perm busStops2) (hit : ionT.Perm ionT2) (hbt : busT.Perm busT2)
    (hi : validEvs ionT) (hb : validEvs busT) :
    calcTransfers ionStops busStops ionT busT r maxM =
      calcTransfers ionStops busStops2 ionT2 busT2 r maxM := by
  have hi2 : validEvs ionT2 := fun e he => hi e (hit.mem_iff.mpr he)
  have hb2 : validEvs busT2 := fun e he => hb e (hbt.mem_iff.mpr he)
  rw [calcTransfers_of_valid ionStops busStops ionT busT r maxM hi hb,
    calcTransfers_of_valid ionStops busStops2 ionT2 busT2 r maxM hi2 hb2]
  unfold calcPure aggregate
  have hpairs : (nearbyPairs busStops ionStops r).Perm (nearbyPairs busStops2 ionStops r) :=
    hbs.flatMap_right _
  congr 1
  apply List.map_congr_left
  intro s _
  rw [distinctRoutes_perm (transfersP_perm hpairs hit hbt) s.sid]

theorem c9_order_independence_witness :
    calcTransfers [⟨1, 0, 0⟩] [⟨2, 50, 0⟩, ⟨3, 0, 50⟩]
        [⟨1, 301, ⟨7, 0, 0⟩⟩] [⟨2, 7, ⟨7, 3, 0⟩⟩, ⟨3, 8, ⟨7, 4, 0⟩⟩] 100 6 =
      calcTransfers [⟨1, 0, 0⟩] [⟨3, 0, 50⟩, ⟨2, 50, 0⟩]
        [⟨1, 301, ⟨7, 0, 0⟩⟩] [⟨3, 8, ⟨7, 4, 0⟩⟩, ⟨2, 7, ⟨7, 3, 0⟩⟩] 100 6 :=
  c9_order_independence [⟨1, 0, 0⟩] [⟨2, 50, 0⟩, ⟨3, 0, 50⟩] [⟨3, 0, 50⟩, ⟨2, 50, 0⟩]
    [⟨1, 301, ⟨7, 0, 0⟩⟩] [⟨1, 301, ⟨7, 0, 0⟩⟩]
    [⟨2, 7, ⟨7, 3, 0⟩⟩, ⟨3, 8, ⟨7, 4, 0⟩⟩] [⟨3, 8, ⟨7, 4, 0⟩⟩, ⟨2, 7, ⟨7, 3, 0⟩⟩]
    100 6 (by decide) (by decide) (by decide) (by decide) (by decide)

theorem digitChar_toNat {n : Nat} (h : n ≤ 9) : (digitChar n).toNat = 48 + n := by
  interval_cases n <;> decide

theorem isDigitCh_digitChar {n : Nat} (h : n ≤ 9) : isDigitCh (digitChar n) = true := by
  interval_cases n <;> decide

theorem lexLe_pad2_append {a b : Nat} (ha : a ≤ 99) (hb : b ≤ 99) (u v : List Char) :
    lexLe (pad2 a ++ u) (pad2 b ++ v) =
      (if a < b then true else if b < a then false else lexLe u v) := by
  have ha1 : a / 10 ≤ 9 := by omega
  have ha2 : a % 10 ≤ 9 := by omega
  have hb1 : b / 10 ≤ 9 := by omega
  have hb2 : b % 10 ≤ 9 := by omega
  unfold pad2
  simp only [List.cons_append, List.nil_append, lexLe,
    digitChar_toNat ha1, digitChar_toNat ha2, digitChar_toNat hb1, digitChar_toNat hb2]
  split_ifs <;> first | rfl | omega

theorem lexLe_cons_same (c : Char) (u v : List Char) :
    lexLe (c :: u) (c :: v) = lexLe u v := by
  simp [lexLe]

theorem lexLe_pad2 {a b : Nat} (ha : a ≤ 99) (hb : b ≤ 99) :
    lexLe (pad2 a) (pad2 b) =
      (if a < b then true else if b < a then false else true) := by
  have ha1 : a / 10 ≤ 9 := by omega
  have ha2 : a % 10 ≤ 9 := by omega
  have hb1 : b / 10 ≤ 9 := by omega
  have hb2 : b % 10 ≤ 9 := by omega
  unfold pad2
  simp only [lexLe,
    digitChar_toNat ha1, digitChar_toNat ha2, digitChar_toNat hb1, digitChar_toNat hb2]
  split_ifs <;> first | rfl | omega

theorem lexLe_render_iff {a b : HMS} (ha : wfT a) (hb : wfT b) :
    (lexLe (render a) (render b) = true) ↔ elapsed a ≤ elapsed b := by
  obtain ⟨ha1, ha2, ha3⟩ := ha
  obtain ⟨hb1, hb2, hb3⟩ := hb
  unfold render
  rw [lexLe_pad2_append ha1 hb1, lexLe_cons_same,
    lexLe_pad2_append (by omega) (by omega), lexLe_cons_same,
    lexLe_pad2 (by omega) (by omega)]
  unfold elapsed
  split_ifs <;> simp <;> omega

theorem isShaped_render {t : HMS} (h : t.h ≤ 99) (hm : t.m ≤ 99) (hs : t.s ≤ 99) :
    isShaped (render t) = true := by
  unfold render pad2
  simp only [List.cons_append, List.nil_append]
  unfold isShaped
  simp [isDigitCh_digitChar (by omega : t.h / 10 ≤ 9),
    isDigitCh_digitChar (by omega : t.h % 10 ≤ 9),
    isDigitCh_digitChar (by omega : t.m / 10 ≤ 9),
    isDigitCh_digitChar (by omega : t.m % 10 ≤ 9),
    isDigitCh_digitChar (by omega : t.s / 10 ≤ 9),
    isDigitCh_digitChar (by omega : t.s % 10 ≤ 9)]

/-- C10 counterexample: the string `07:99:00` is of the filtered shape and
sorts below `08:00:00` lexicographically, yet its elapsed-seconds value
(31140) exceeds that of `08:00:00` (28800); the window filter
`[07:00:00, 08:00:00]` therefore admits an event whose elapsed time is
outside the closed elapsed window — lexicographic order does not coincide
with elapsed-seconds order on all strings of that shape. -/
theorem c10_lex_vs_elapsed_counterexample :
    isShaped (render ⟨7, 99, 0⟩) = true ∧
    lexLe (render ⟨7, 99, 0⟩) (render ⟨8, 0, 0⟩) = true ∧
    elapsed ⟨8, 0, 0⟩ < elapsed ⟨7, 99, 0⟩ ∧
    rawFilter (render ⟨7, 0, 0⟩) (render ⟨8, 0, 0⟩)
        [⟨1, 2, some (render ⟨7, 99, 0⟩)⟩] = [⟨1, 2, some (render ⟨7, 99, 0⟩)⟩] := by
  decide

/-- C10 (amended): on shape strings whose minute and second fields are in
clock range (hour fields 00-99, post-midnight hours included),
lexicographic comparison coincides with elapsed-seconds order, so the
window filter admits exactly the events whose elapsed time lies in the
closed window; rows with a missing time value or a time string not of the
shape are dropped by the filter rather than causing a failure. -/
theorem c10_lex_filter (a b winS winE tt : HMS) (e0 : RawEv) (sid rid : Nat)
    (ha : wfT a) (hb : wfT b) (hws : wfT winS) (hwe : wfT winE) (htt : wfT tt) :
    ((lexLe (render a) (render b) = true) ↔ elapsed a ≤ elapsed b) ∧
    (rawFilter (render winS) (render winE) [⟨sid, rid, some (render tt)⟩] =
      if elapsed winS ≤ elapsed tt ∧ elapsed tt ≤ elapsed winE
      then [⟨sid, rid, some (render tt)⟩] else []) ∧
    (e0.time = none → rawFilter (render winS) (render winE) [e0] = []) ∧
    (∀ c, e0.time = some c → isShaped c = false →
      rawFilter (render winS) (render winE) [e0] = []) := by
  have h2 := lexLe_render_iff hws htt
  have h3 := lexLe_render_iff htt hwe
  refine ⟨lexLe_render_iff ha hb, ?_, ?_, ?_⟩
  · have h1 : isShaped (render tt) = true :=
      isShaped_render htt.1 (le_trans htt.2.1 (by norm_num)) (le_trans htt.2.2 (by norm_num))
    have hk : keepEvent (render winS) (render winE) ⟨sid, rid, some (render tt)⟩ =
        (decide (elapsed winS ≤ elapsed tt) && decide (elapsed tt ≤ elapsed winE)) := by
      show (isShaped (render tt) && lexLe (render winS) (render tt) &&
        lexLe (render tt) (render winE)) = _
      rw [h1, Bool.true_and]
      by_cases hc1 : elapsed winS ≤ elapsed tt
      · rw [h2.mpr hc1]
        by_cases hc2 : elapsed tt ≤ elapsed winE
        · rw [h3.mpr hc2]
          simp [hc1, hc2]
        · have h4 : lexLe (render tt) (render winE) = false :=
            Bool.eq_false_iff.mpr fun hh => hc2 (h3.mp hh)
          rw [h4]
          simp [hc1, hc2]
      · have h4 : lexLe (render winS) (render tt) = false :=
          Bool.eq_false_iff.mpr fun hh => hc1 (h2.mp hh)
        rw [h4]
        simp [hc1]
    unfold rawFilter
    simp only [List.filter_cons, List.filter_nil, hk]
    by_cases hc1 : elapsed winS ≤ elapsed tt <;>
      by_cases hc2 : elapsed tt ≤ elapsed winE <;>
      simp [hc1, hc2]
  · intro hnone
    have hk : keepEvent (render winS) (render winE) e0 = false := by
      unfold keepEvent
      rw [hnone]
    unfold rawFilter
    simp [List.filter_cons, hk]
  · intro c hsome hshape
    have hk : keepEvent (render winS) (render winE) e0 = false := by
      unfold keepEvent
      rw [hsome]
      show (isShaped c && lexLe (render winS) c && lexLe c (render winE)) = false
      rw [hshape]
      simp
    unfold rawFilter
    simp [List.filter_cons, hk]

theorem c10_lex_filter_witness :
    (((lexLe (render ⟨7, 0, 0⟩) (render ⟨25, 30, 0⟩) = true) ↔
        elapsed ⟨7, 0, 0⟩ ≤ elapsed ⟨25, 30, 0⟩) ∧
    (rawFilter (render ⟨7, 0, 0⟩) (render ⟨9, 0, 0⟩)
        [⟨1, 2, some (render ⟨7, 30, 0⟩)⟩] =
      if elapsed ⟨7, 0, 0⟩ ≤ elapsed ⟨7, 30, 0⟩ ∧
          elapsed ⟨7, 30, 0⟩ ≤ elapsed ⟨9, 0, 0⟩
      then [⟨1, 2, some (render ⟨7, 30, 0⟩)⟩] else []) ∧
    ((⟨5, 5, none⟩ : RawEv).time = none →
      rawFilter (render ⟨7, 0, 0⟩) (render ⟨9, 0, 0⟩) [⟨5, 5, none⟩] = []) ∧
    (∀ c, (⟨5, 5, none⟩ : RawEv).time = some c → isShaped c = false →
      rawFilter (render ⟨7, 0, 0⟩) (render ⟨9, 0, 0⟩) [⟨5, 5, none⟩] = [])) :=
  c10_lex_filter ⟨7, 0, 0⟩ ⟨25, 30, 0⟩ ⟨7, 0, 0⟩ ⟨9, 0, 0⟩ ⟨7, 30, 0⟩ ⟨5, 5, none⟩ 1 2
    (by decide) (by decide) (by decide) (by decide) (by decide)
